import Mathlib

/-!
Verification development for the voice-phishing detection service
(app/services/voice_phishing_service.py).

The embedding models the pure data flow of `VoicePhishingDetector` and
`HybridPhishingSession`. External capabilities that live outside the
repository (the Okt morphological analyzer joined with the CSV weight
lexicon, the type-classification CSV, and the KoBERT model) are abstracted
as fields of a `Detector` record; everything the Python file itself
computes is translated literally. Python floats are modelled as exact
rationals, Python str as Lean String with an explicit model of str.strip.
-/

namespace AntiPhishing

/-- Whitespace recognized by the model of Python str.strip (ASCII subset). -/
def isPySpace (c : Char) : Bool :=
  c = ' ' || c = '\t' || c = '\n' || c = '\r' || c = '\x0b' || c = '\x0c'

/-- Strip leading and trailing whitespace from a character list. -/
def stripChars (l : List Char) : List Char :=
  ((l.dropWhile isPySpace).reverse.dropWhile isPySpace).reverse

/-- Model of Python str.strip(). -/
def pyStrip (s : String) : String := ⟨stripChars s.data⟩

/-- Model of Python len() on str: number of characters. -/
def pyLen (s : String) : ℕ := s.data.length

/-- Model of Python text.count of a single space character. -/
def spaceCount (s : String) : ℕ := s.data.count ' '

/-- Model of Python round(q, digits) (tie behavior is immaterial here). -/
def roundTo (digits : ℕ) (q : ℚ) : ℚ := (round (q * 10 ^ digits) : ℤ) / 10 ^ digits

/-- One entry of keyword_details: word, rounded weight, rounded score. -/
structure KeywordDetail where
  word : String
  weight : ℚ
  score : ℚ
deriving DecidableEq

/-- Result dictionary of VoicePhishingDetector.detect_immediate. -/
structure ImmediateResult where
  level : ℕ
  probability : ℚ
  phishingType : Option String
  keywords : List String
  keywordDetails : List KeywordDetail
  method : String
deriving DecidableEq

/-- Result dictionary of VoicePhishingDetector.detect_comprehensive. -/
structure ComprehensiveResult where
  isPhishing : Bool
  confidence : ℚ
  method : String
  analyzedLength : ℕ
deriving DecidableEq

/-- Result dictionary of HybridPhishingSession._current_cumulative_snapshot. -/
structure Snapshot where
  level : ℕ
  probability : ℚ
  phishingType : Option String
  keywords : List String
  keywordDetails : List KeywordDetail
  method : String
deriving DecidableEq

/-- One record of HybridPhishingSession.conversation_log. -/
structure LogEntry where
  text : String
  isFinal : Bool
  timestamp : ℚ
  chunkImmediate : ImmediateResult
  immediate : Snapshot
deriving DecidableEq

/-- Return dictionary of HybridPhishingSession.process_fragment. The history
and sessionId keys are absent (none) on the empty-fragment early return. -/
structure FragmentResult where
  chunkImmediate : Option ImmediateResult
  immediate : Snapshot
  comprehensive : Option ComprehensiveResult
  history : Option (List LogEntry)
  sessionId : Option String
deriving DecidableEq

/-- Return dictionary of HybridPhishingSession.add_sentence. -/
structure AddResult where
  immediate : Option ImmediateResult
  comprehensive : Option ComprehensiveResult
deriving DecidableEq

/-- Record written by HybridPhishingSession._persist_conversation. -/
structure PersistRecord where
  sessionId : String
  startedAt : ℚ
  endedAt : ℚ
  log : List LogEntry
deriving DecidableEq

/-- Abstraction of the external capabilities of VoicePhishingDetector.
tokens models the composition of Okt part-of-speech tagging with the lookup
in the 500-weight CSV: for a text it yields the df-matched tokens in order,
each with its lexicon weight. chooseType models the type1/type2 CSV scoring
that picks a crime-type label for a nonempty token-count table. kobertProb
models the positive-class softmax probability of the KoBERT model, and
kobertThreshold the configured decision threshold (default 0.35). -/
structure Detector where
  tokens : String → List (String × ℚ)
  chooseType : List (String × ℕ) → String
  kobertProb : String → ℚ
  kobertThreshold : ℚ

/-- Environment-derived session configuration with its default values. -/
structure Config where
  immediateMinChars : ℕ
  minSentencesForKobert : ℕ
  minCharsForKobert : ℕ
  riskGain : ℚ
  safeDecay : ℚ
  forceFinalEnabled : Bool

/-- Defaults of the PHISHING_* environment variables. -/
def defaultConfig : Config :=
  { immediateMinChars := 3
    minSentencesForKobert := 1
    minCharsForKobert := 6
    riskGain := 1
    safeDecay := 3 / 2
    forceFinalEnabled := true }

/-- Mutable state of HybridPhishingSession. -/
structure SessionState where
  windowSize : ℕ
  sentenceBuffer : List String
  accumulatedText : String
  kobertResult : Option ComprehensiveResult
  sentenceCount : ℕ
  cumulativeProbability : ℚ
  cumulativeKeywords : List String
  keywordCounts : String → ℕ
  cumulativeKeywordDetails : List KeywordDetail
  keywordDetailKeys : List KeywordDetail
  cumulativePhishingType : Option String
  conversationLog : List LogEntry
  sessionId : String
  startedAt : ℚ
  currentSentence : String

/-- State produced by HybridPhishingSession.__init__. -/
def initialState (windowSize : ℕ) (sessionId : String) (startedAt : ℚ) : SessionState :=
  { windowSize := windowSize
    sentenceBuffer := []
    accumulatedText := ""
    kobertResult := none
    sentenceCount := 0
    cumulativeProbability := 0
    cumulativeKeywords := []
    keywordCounts := fun _ => 0
    cumulativeKeywordDetails := []
    keywordDetailKeys := []
    cumulativePhishingType := none
    conversationLog := []
    sessionId := sessionId
    startedAt := startedAt
    currentSentence := "" }

/-- RISK_THRESHOLD constant of _calculate_risk_level. -/
def riskThreshold : ℚ := 13 / 10

/-- Accumulator of the token loop in _calculate_risk_level. -/
structure RiskAcc where
  score : ℚ
  dict : List (String × ℕ)
  keywords : List String
  details : List KeywordDetail

/-- In-place increment of a token-count table entry (token_dict update). -/
def bumpDict : List (String × ℕ) → String → List (String × ℕ)
  | [], _ => []
  | (x, n) :: rest, w => if x = w then (x, n + 1) :: rest else (x, n) :: bumpDict rest w

/-- The token loop of _calculate_risk_level: sum word scores of tokens whose
weight reaches the risk threshold; record first occurrences in the dict,
the keyword list and the detail list, count repeats in the dict. -/
def riskFold : List (String × ℚ) → RiskAcc → RiskAcc
  | [], acc => acc
  | (word, weight) :: rest, acc =>
    if riskThreshold ≤ weight then
      let wordScore := (weight - 1) * 10
      let withScore : RiskAcc := { acc with score := acc.score + wordScore }
      if acc.dict.any (fun p => p.1 = word) then
        riskFold rest { withScore with dict := bumpDict withScore.dict word }
      else
        riskFold rest
          { withScore with
            dict := withScore.dict ++ [(word, 1)]
            keywords := withScore.keywords ++ [word]
            details := withScore.details ++ [⟨word, roundTo 4 weight, roundTo 2 wordScore⟩] }
    else
      riskFold rest acc

/-- Result tuple of _calculate_risk_level. -/
structure RiskResult where
  level : ℕ
  probability : ℚ
  phishingType : Option String
  keywords : List String
  keywordDetails : List KeywordDetail

/-- VoicePhishingDetector._calculate_risk_level: filter tokens longer than
one character, sum thresholded weights, clamp the score at 100, band it
into a level, and classify the crime type when any risky token was seen. -/
def calculate_risk_level (d : Detector) (text : String) : RiskResult :=
  let toks := (d.tokens text).filter (fun p => decide (1 < pyLen p.1))
  let acc := riskFold toks ⟨0, [], [], []⟩
  let probability := min acc.score 100
  let level : ℕ :=
    if probability < 3 then 0 else if probability < 8 then 1
    else if probability < 15 then 2 else 3
  let pt := if acc.dict.isEmpty then none else some (d.chooseType acc.dict)
  ⟨level, probability, pt, acc.keywords, acc.details⟩

/-- VoicePhishingDetector.detect_immediate. -/
def detect_immediate (d : Detector) (cfg : Config) (text : String) : ImmediateResult :=
  let normalized := pyStrip text
  if normalized = "" ∨ pyLen normalized < cfg.immediateMinChars then
    ⟨0, 0, none, [], [], "word_based"⟩
  else
    let r := calculate_risk_level d normalized
    ⟨r.level, r.probability, r.phishingType, r.keywords, r.keywordDetails, "word_based"⟩

/-- VoicePhishingDetector.level_from_probability. -/
def level_from_probability (p : ℚ) : ℕ :=
  if p < 3 then 0 else if p < 8 then 1 else if p < 15 then 2 else 3

/-- VoicePhishingDetector.detect_comprehensive: inputs shorter than ten
stripped characters short-circuit to a negative result without touching the
model; otherwise the KoBERT probability is compared with the threshold. -/
def detect_comprehensive (d : Detector) (text : String) : ComprehensiveResult :=
  if text = "" ∨ pyLen (pyStrip text) < 10 then
    ⟨false, 0, "kobert", 0⟩
  else
    let p := d.kobertProb text
    ⟨decide (d.kobertThreshold ≤ p), p, "kobert", pyLen text⟩

/-- Per-keyword occurrence bump of _keyword_counts. -/
def bumpCount (c : String → ℕ) (kw : String) : String → ℕ :=
  fun x => if x = kw then c kw + 1 else c x

/-- Keyword loop of HybridPhishingSession._merge_keywords: skip empty
keywords, bump the occurrence count, append to cumulative_keywords. -/
def mergeKw : List String → (String → ℕ) → List String → ((String → ℕ) × List String)
  | [], c, acc => (c, acc)
  | kw :: rest, c, acc =>
    if kw = "" then mergeKw rest c acc
    else mergeKw rest (bumpCount c kw) (acc ++ [kw])

/-- Detail loop of _merge_keywords: a detail not yet in the seen-key set is
added to the set and appended to cumulative_keyword_details. -/
def mergeDetails :
    List KeywordDetail → List KeywordDetail → List KeywordDetail →
      (List KeywordDetail × List KeywordDetail)
  | [], keys, ds => (keys, ds)
  | dtl :: rest, keys, ds =>
    if dtl ∈ keys then mergeDetails rest keys ds
    else mergeDetails rest (keys ++ [dtl]) (ds ++ [dtl])

/-- HybridPhishingSession._merge_keywords as a state transformer. -/
def merge_keywords (st : SessionState) (ir : ImmediateResult) : SessionState :=
  { st with
    keywordCounts := (mergeKw ir.keywords st.keywordCounts st.cumulativeKeywords).1
    cumulativeKeywords := (mergeKw ir.keywords st.keywordCounts st.cumulativeKeywords).2
    keywordDetailKeys :=
      (mergeDetails ir.keywordDetails st.keywordDetailKeys st.cumulativeKeywordDetails).1
    cumulativeKeywordDetails :=
      (mergeDetails ir.keywordDetails st.keywordDetailKeys st.cumulativeKeywordDetails).2 }

/-- Repeat factor of _update_cumulative_immediate: mean over the nonempty
chunk keywords of one over one plus the prior occurrence count, defaulting
to one when no factor was collected. -/
def repeatFactor (c : String → ℕ) (ks : List String) : ℚ :=
  let factors := (ks.filter (fun kw => decide (kw ≠ ""))).map (fun kw => 1 / (1 + (c kw : ℚ)))
  if factors.isEmpty then 1 else factors.sum / factors.length

/-- State mutation of HybridPhishingSession._update_cumulative_immediate:
risky chunks add a dampened delta clamped at 100 and merge their keywords,
safe chunks decay the score floored at 0. The snapshot the Python method
returns is currentSnapshot of the produced state. -/
def update_cumulative_immediate (cfg : Config) (st : SessionState)
    (r : Option ImmediateResult) : SessionState :=
  match r with
  | none => st
  | some ir =>
    if 0 < ir.level then
      let delta := ir.probability * cfg.riskGain * repeatFactor st.keywordCounts ir.keywords
      let st1 := { st with cumulativeProbability := min 100 (st.cumulativeProbability + delta) }
      let st2 :=
        match ir.phishingType with
        | some t => if t = "" then st1 else { st1 with cumulativePhishingType := some t }
        | none => st1
      merge_keywords st2 ir
    else
      { st with cumulativeProbability := max 0 (st.cumulativeProbability - cfg.safeDecay) }

/-- HybridPhishingSession._current_cumulative_snapshot. -/
def currentSnapshot (st : SessionState) : Snapshot :=
  { level := level_from_probability st.cumulativeProbability
    probability := roundTo 2 st.cumulativeProbability
    phishingType := st.cumulativePhishingType
    keywords := st.cumulativeKeywords
    keywordDetails := st.cumulativeKeywordDetails
    method := "word_based_cumulative" }

/-- Last-character test of _should_force_finalize: the one-character tail
slice is a sentence-final punctuation or particle marker. -/
def lastCharFinal (text : String) : Bool :=
  match text.data.getLast? with
  | some c => c = '.' || c = '!' || c = '?' || c = '다' || c = '요'
  | none => false

/-- HybridPhishingSession._should_force_finalize. -/
def should_force_finalize (cfg : Config) (sentence : String) : Bool :=
  if !cfg.forceFinalEnabled then false
  else
    let text := pyStrip sentence
    if pyLen text < cfg.minCharsForKobert then false
    else if lastCharFinal text then true
    else if 2 ≤ spaceCount text then true
    else false

/-- HybridPhishingSession._append_history: only nonempty finalized
sentences append a conversation-log record. -/
def append_history (st : SessionState) (sentence : String) (isFinal : Bool)
    (chunk : ImmediateResult) (snap : Snapshot) (now : ℚ) : SessionState :=
  if isFinal = false ∨ sentence = "" then st
  else
    { st with
      conversationLog := st.conversationLog ++ [⟨sentence, true, now, chunk, snap⟩] }

/-- Bounded append of collections.deque with maxlen: drop from the left
beyond the window size. -/
def pushWindow (maxlen : ℕ) (buf : List String) (x : String) : List String :=
  let b := buf ++ [x]
  if maxlen < b.length then b.drop (b.length - maxlen) else b

/-- HybridPhishingSession.add_sentence: sentences shorter than five stripped
characters are discarded unchanged; otherwise the buffer, accumulated text
and sentence count advance and the comprehensive classifier runs under the
count-or-length gate, recording its result in kobert_result. -/
def add_sentence (d : Detector) (cfg : Config) (st : SessionState) (sentence : String)
    (givenImmediate : Option ImmediateResult) : SessionState × AddResult :=
  if sentence = "" ∨ pyLen (pyStrip sentence) < 5 then
    (st, ⟨none, none⟩)
  else
    let buffer := pushWindow st.windowSize st.sentenceBuffer sentence
    let accumulated := st.accumulatedText ++ " " ++ sentence
    let count := st.sentenceCount + 1
    let ir :=
      match givenImmediate with
      | some r => r
      | none => detect_immediate d cfg sentence
    let accText := pyStrip accumulated
    if max 1 cfg.minSentencesForKobert ≤ count ∨ cfg.minCharsForKobert ≤ pyLen accText then
      let comp := detect_comprehensive d accText
      ({ st with
          sentenceBuffer := buffer
          accumulatedText := accumulated
          sentenceCount := count
          kobertResult := some comp },
        ⟨some ir, some comp⟩)
    else
      ({ st with
          sentenceBuffer := buffer
          accumulatedText := accumulated
          sentenceCount := count },
        ⟨some ir, none⟩)

/-- HybridPhishingSession.process_fragment. The now argument models the
time.time() stamp of the appended log entry. -/
def process_fragment (d : Detector) (cfg : Config) (st : SessionState) (sentence : String)
    (isFinal : Bool) (now : ℚ) : SessionState × FragmentResult :=
  if pyStrip sentence = "" then
    (st, ⟨none, currentSnapshot st, none, none, none⟩)
  else
    let ir := detect_immediate d cfg sentence
    let st1 := update_cumulative_immediate cfg st (some ir)
    let snap := currentSnapshot st1
    let pending := pyStrip (st1.currentSentence ++ " " ++ sentence)
    if pending ≠ "" ∧ (isFinal = true ∨ should_force_finalize cfg pending = true) then
      let st2 := { st1 with currentSentence := "" }
      let finalImmediate := detect_immediate d cfg pending
      let ar := add_sentence d cfg st2 pending (some finalImmediate)
      let st3 := append_history ar.1 pending true finalImmediate snap now
      (st3, ⟨some ir, snap, ar.2.comprehensive, some st3.conversationLog, some st3.sessionId⟩)
    else
      let st2 := { st1 with currentSentence := pending }
      let st3 := append_history st2 sentence false ir snap now
      (st3, ⟨some ir, snap, none, some st3.conversationLog, some st3.sessionId⟩)

/-- Fold of process_fragment over a list of (text, isFinalHint, time) calls. -/
def runFragments (d : Detector) (cfg : Config) :
    SessionState → List (String × Bool × ℚ) → SessionState
  | st, [] => st
  | st, (s, h, t) :: rest => runFragments d cfg (process_fragment d cfg st s h t).1 rest

/-- Iterated feeding of one fixed fragment; ts gives the per-call time. -/
def feedN (d : Detector) (cfg : Config) (s : String) (h : Bool) (ts : ℕ → ℚ)
    (st : SessionState) : ℕ → SessionState
  | 0 => st
  | n + 1 => (process_fragment d cfg (feedN d cfg s h ts st n) s h (ts n)).1

/-- HybridPhishingSession._persist_conversation: nothing is written for an
empty conversation log. -/
def persist_conversation (st : SessionState) (endedAt : ℚ) : Option PersistRecord :=
  if st.conversationLog.isEmpty then none
  else some ⟨st.sessionId, st.startedAt, endedAt, st.conversationLog⟩

/-- HybridPhishingSession.reset: persist the log, clear every mutable field,
mint a fresh session id and start time. -/
def reset (st : SessionState) (newId : String) (endedAt newStart : ℚ) :
    SessionState × Option PersistRecord :=
  ({ windowSize := st.windowSize
     sentenceBuffer := []
     accumulatedText := ""
     kobertResult := none
     sentenceCount := 0
     cumulativeProbability := 0
     cumulativeKeywords := []
     keywordCounts := fun _ => 0
     cumulativeKeywordDetails := []
     keywordDetailKeys := []
     cumulativePhishingType := none
     conversationLog := []
     sessionId := newId
     startedAt := newStart
     currentSentence := "" },
   persist_conversation st endedAt)

/-- Finalization decision of process_fragment lines 531 to 542, as a
standalone predicate over the pre-call state. -/
def fragmentFinalizes (cfg : Config) (st : SessionState) (sentence : String)
    (isFinal : Bool) : Bool :=
  decide (pyStrip sentence ≠ "") &&
    (isFinal || should_force_finalize cfg (pyStrip (st.currentSentence ++ " " ++ sentence)))

/-- Concrete detector used by the evaluation witnesses: one risky lexicon
token, a constant type label, a constant model probability, the default
threshold. -/
def sampleDetector : Detector :=
  { tokens := fun t => if t = "검찰청입니다" then [(("검찰청"), 19 / 10)] else []
    chooseType := fun _ => "수사기관사칭형"
    kobertProb := fun _ => 1 / 2
    kobertThreshold := 7 / 20 }

/-- Concrete fresh session used by the evaluation witnesses. -/
def sampleState : SessionState := initialState 5 ("session0") 0

/-! ### String model lemmas -/

lemma string_data_append (a b : String) : (a ++ b).data = a.data ++ b.data := rfl

lemma string_eq_empty_iff (s : String) : s = "" ↔ s.data = [] :=
  ⟨fun h => h ▸ rfl, fun h => by cases s; simp_all⟩

lemma stripChars_eq_nil_iff (l : List Char) :
    stripChars l = [] ↔ ∀ c ∈ l, isPySpace c = true := by
  unfold stripChars
  rw [List.reverse_eq_nil_iff, List.dropWhile_eq_nil_iff]
  constructor
  · intro h c hc
    have hsplit := List.takeWhile_append_dropWhile (p := isPySpace) (l := l)
    rw [← hsplit] at hc
    rcases List.mem_append.mp hc with h1 | h2
    · exact List.mem_takeWhile_imp h1
    · exact h _ (List.mem_reverse.mpr h2)
  · intro h c hc
    exact h c ((List.dropWhile_sublist _).subset (List.mem_reverse.mp hc))

lemma pyStrip_eq_empty_iff (s : String) :
    pyStrip s = "" ↔ ∀ c ∈ s.data, isPySpace c = true := by
  rw [string_eq_empty_iff]
  show stripChars s.data = [] ↔ _
  exact stripChars_eq_nil_iff s.data

lemma pyStrip_append_space_ne (a s : String) (hs : pyStrip s ≠ "") :
    pyStrip (a ++ " " ++ s) ≠ "" := by
  intro hcontra
  apply hs
  rw [pyStrip_eq_empty_iff] at hcontra ⊢
  intro c hc
  apply hcontra
  rw [string_data_append, string_data_append]
  exact List.mem_append.mpr (Or.inr hc)

/-! ### Risk-fold lemmas -/

lemma wordScore_nonneg {w : ℚ} (h : riskThreshold ≤ w) : (0 : ℚ) ≤ (w - 1) * 10 := by
  unfold riskThreshold at h
  nlinarith

lemma riskFold_score_mono (l : List (String × ℚ)) :
    ∀ acc : RiskAcc, acc.score ≤ (riskFold l acc).score := by
  induction l with
  | nil => intro acc; simp [riskFold]
  | cons p rest ih =>
    intro acc
    obtain ⟨word, weight⟩ := p
    show acc.score ≤ (riskFold (⟨word, weight⟩ :: rest) acc).score
    rw [riskFold]
    by_cases hw : riskThreshold ≤ weight
    · rw [if_pos hw]
      have hws := wordScore_nonneg hw
      by_cases hmem : acc.dict.any (fun p => p.1 = word)
      · rw [if_pos hmem]
        refine le_trans ?_ (ih _)
        simp only
        linarith
      · rw [if_neg hmem]
        refine le_trans ?_ (ih _)
        simp only
        linarith
    · rw [if_neg hw]
      exact ih acc

lemma riskFold_keywords_prop (P : String → Prop) (l : List (String × ℚ)) :
    ∀ acc : RiskAcc, (∀ kw ∈ acc.keywords, P kw) → (∀ p ∈ l, P p.1) →
      ∀ kw ∈ (riskFold l acc).keywords, P kw := by
  induction l with
  | nil => intro acc hacc _ kw hkw; exact hacc kw hkw
  | cons p rest ih =>
    intro acc hacc hl kw hkw
    obtain ⟨word, weight⟩ := p
    rw [riskFold] at hkw
    by_cases hw : riskThreshold ≤ weight
    · rw [if_pos hw] at hkw
      by_cases hmem : acc.dict.any (fun p => p.1 = word)
      · rw [if_pos hmem] at hkw
        refine ih _ ?_ (fun q hq => hl q (List.mem_cons_of_mem _ hq)) kw hkw
        exact hacc
      · rw [if_neg hmem] at hkw
        refine ih _ ?_ (fun q hq => hl q (List.mem_cons_of_mem _ hq)) kw hkw
        intro k hk
        rcases List.mem_append.mp hk with h1 | h2
        · exact hacc k h1
        · rw [List.mem_singleton.mp h2]
          exact hl ⟨word, weight⟩ (List.mem_cons_self _ _)
    · rw [if_neg hw] at hkw
      refine ih _ ?_ (fun q hq => hl q (List.mem_cons_of_mem _ hq)) kw hkw
      exact hacc

lemma calculate_risk_level_prob_nonneg (d : Detector) (text : String) :
    0 ≤ (calculate_risk_level d text).probability := by
  unfold calculate_risk_level
  simp only
  refine le_min ?_ (by norm_num)
  have := riskFold_score_mono
    ((d.tokens text).filter (fun p => decide (1 < pyLen p.1))) ⟨0, [], [], []⟩
  simpa using this

lemma calculate_risk_level_keywords_ne (d : Detector) (text : String) :
    ∀ kw ∈ (calculate_risk_level d text).keywords, kw ≠ "" := by
  unfold calculate_risk_level
  simp only
  intro kw hkw
  refine riskFold_keywords_prop (fun w => w ≠ "")
    ((d.tokens text).filter (fun p => decide (1 < pyLen p.1))) ⟨0, [], [], []⟩
    (by simp) ?_ kw hkw
  intro p hp
  have := (List.mem_filter.mp hp).2
  have hlen : 1 < pyLen p.1 := of_decide_eq_true this
  intro hcontra
  rw [hcontra] at hlen
  simp [pyLen] at hlen

lemma calculate_risk_level_level_pos (d : Detector) (text : String)
    (h : 0 < (calculate_risk_level d text).level) :
    3 ≤ (calculate_risk_level d text).probability := by
  by_contra hlt
  push_neg at hlt
  unfold calculate_risk_level at h hlt
  simp only at h hlt
  rw [if_pos hlt] at h
  exact absurd h (by norm_num)

lemma detect_immediate_prob_nonneg (d : Detector) (cfg : Config) (text : String) :
    0 ≤ (detect_immediate d cfg text).probability := by
  simp only [detect_immediate]
  split
  · norm_num
  · exact calculate_risk_level_prob_nonneg d (pyStrip text)

lemma detect_immediate_keywords_ne (d : Detector) (cfg : Config) (text : String) :
    ∀ kw ∈ (detect_immediate d cfg text).keywords, kw ≠ "" := by
  simp only [detect_immediate]
  split
  · simp
  · exact calculate_risk_level_keywords_ne d (pyStrip text)

lemma detect_immediate_level_pos_prob (d : Detector) (cfg : Config) (text : String)
    (h : 0 < (detect_immediate d cfg text).level) :
    3 ≤ (detect_immediate d cfg text).probability := by
  simp only [detect_immediate] at h ⊢
  split at h
  · simp at h
  · rename_i hcond
    rw [if_neg hcond]
    exact calculate_risk_level_level_pos d (pyStrip text) h

lemma detect_immediate_level_pos_strip (d : Detector) (cfg : Config) (text : String)
    (h : 0 < (detect_immediate d cfg text).level) : pyStrip text ≠ "" := by
  simp only [detect_immediate] at h
  by_contra hc
  rw [if_pos (Or.inl hc)] at h
  simp at h

/-! ### Field-preservation lemmas for the session operations -/

lemma update_cum_currentSentence (cfg : Config) (st : SessionState) (r : Option ImmediateResult) :
    (update_cumulative_immediate cfg st r).currentSentence = st.currentSentence := by
  cases r with
  | none => rfl
  | some ir =>
    simp only [update_cumulative_immediate, merge_keywords]
    repeat' split
    all_goals rfl

lemma update_cum_conversationLog (cfg : Config) (st : SessionState) (r : Option ImmediateResult) :
    (update_cumulative_immediate cfg st r).conversationLog = st.conversationLog := by
  cases r with
  | none => rfl
  | some ir =>
    simp only [update_cumulative_immediate, merge_keywords]
    repeat' split
    all_goals rfl

lemma update_cum_sentenceBuffer (cfg : Config) (st : SessionState) (r : Option ImmediateResult) :
    (update_cumulative_immediate cfg st r).sentenceBuffer = st.sentenceBuffer := by
  cases r with
  | none => rfl
  | some ir =>
    simp only [update_cumulative_immediate, merge_keywords]
    repeat' split
    all_goals rfl

lemma update_cum_accumulatedText (cfg : Config) (st : SessionState) (r : Option ImmediateResult) :
    (update_cumulative_immediate cfg st r).accumulatedText = st.accumulatedText := by
  cases r with
  | none => rfl
  | some ir =>
    simp only [update_cumulative_immediate, merge_keywords]
    repeat' split
    all_goals rfl

lemma update_cum_sentenceCount (cfg : Config) (st : SessionState) (r : Option ImmediateResult) :
    (update_cumulative_immediate cfg st r).sentenceCount = st.sentenceCount := by
  cases r with
  | none => rfl
  | some ir =>
    simp only [update_cumulative_immediate, merge_keywords]
    repeat' split
    all_goals rfl

lemma update_cum_windowSize (cfg : Config) (st : SessionState) (r : Option ImmediateResult) :
    (update_cumulative_immediate cfg st r).windowSize = st.windowSize := by
  cases r with
  | none => rfl
  | some ir =>
    simp only [update_cumulative_immediate, merge_keywords]
    repeat' split
    all_goals rfl

lemma update_cum_cum_risky (cfg : Config) (st : SessionState) (ir : ImmediateResult)
    (h : 0 < ir.level) :
    (update_cumulative_immediate cfg st (some ir)).cumulativeProbability =
      min 100 (st.cumulativeProbability +
        ir.probability * cfg.riskGain * repeatFactor st.keywordCounts ir.keywords) := by
  simp only [update_cumulative_immediate, merge_keywords]
  rw [if_pos h]
  repeat' split
  all_goals rfl

lemma update_cum_cum_safe (cfg : Config) (st : SessionState) (ir : ImmediateResult)
    (h : ¬ 0 < ir.level) :
    (update_cumulative_immediate cfg st (some ir)).cumulativeProbability =
      max 0 (st.cumulativeProbability - cfg.safeDecay) := by
  simp only [update_cumulative_immediate]
  rw [if_neg h]

lemma update_cum_counts_risky (cfg : Config) (st : SessionState) (ir : ImmediateResult)
    (h : 0 < ir.level) :
    (update_cumulative_immediate cfg st (some ir)).keywordCounts =
      (mergeKw ir.keywords st.keywordCounts st.cumulativeKeywords).1 := by
  simp only [update_cumulative_immediate, merge_keywords]
  rw [if_pos h]
  repeat' split
  all_goals rfl

lemma update_cum_counts_safe (cfg : Config) (st : SessionState) (ir : ImmediateResult)
    (h : ¬ 0 < ir.level) :
    (update_cumulative_immediate cfg st (some ir)).keywordCounts = st.keywordCounts := by
  simp only [update_cumulative_immediate]
  rw [if_neg h]

lemma update_cum_details_risky (cfg : Config) (st : SessionState) (ir : ImmediateResult)
    (h : 0 < ir.level) :
    (update_cumulative_immediate cfg st (some ir)).keywordDetailKeys =
        (mergeDetails ir.keywordDetails st.keywordDetailKeys st.cumulativeKeywordDetails).1 ∧
      (update_cumulative_immediate cfg st (some ir)).cumulativeKeywordDetails =
        (mergeDetails ir.keywordDetails st.keywordDetailKeys st.cumulativeKeywordDetails).2 := by
  simp only [update_cumulative_immediate, merge_keywords]
  rw [if_pos h]
  constructor
  all_goals repeat' split
  all_goals rfl

lemma update_cum_details_safe (cfg : Config) (st : SessionState) (ir : ImmediateResult)
    (h : ¬ 0 < ir.level) :
    (update_cumulative_immediate cfg st (some ir)).keywordDetailKeys = st.keywordDetailKeys ∧
      (update_cumulative_immediate cfg st (some ir)).cumulativeKeywordDetails =
        st.cumulativeKeywordDetails := by
  simp only [update_cumulative_immediate]
  rw [if_neg h]
  exact ⟨rfl, rfl⟩

lemma add_sentence_cum (d : Detector) (cfg : Config) (st : SessionState) (s : String)
    (gi : Option ImmediateResult) :
    (add_sentence d cfg st s gi).1.cumulativeProbability = st.cumulativeProbability := by
  simp only [add_sentence]
  repeat' split
  all_goals rfl

lemma add_sentence_counts (d : Detector) (cfg : Config) (st : SessionState) (s : String)
    (gi : Option ImmediateResult) :
    (add_sentence d cfg st s gi).1.keywordCounts = st.keywordCounts := by
  simp only [add_sentence]
  repeat' split
  all_goals rfl

lemma add_sentence_keywords (d : Detector) (cfg : Config) (st : SessionState) (s : String)
    (gi : Option ImmediateResult) :
    (add_sentence d cfg st s gi).1.cumulativeKeywords = st.cumulativeKeywords := by
  simp only [add_sentence]
  repeat' split
  all_goals rfl

lemma add_sentence_details (d : Detector) (cfg : Config) (st : SessionState) (s : String)
    (gi : Option ImmediateResult) :
    (add_sentence d cfg st s gi).1.keywordDetailKeys = st.keywordDetailKeys ∧
      (add_sentence d cfg st s gi).1.cumulativeKeywordDetails = st.cumulativeKeywordDetails := by
  constructor
  all_goals simp only [add_sentence]
  all_goals repeat' split
  all_goals rfl

lemma add_sentence_currentSentence (d : Detector) (cfg : Config) (st : SessionState) (s : String)
    (gi : Option ImmediateResult) :
    (add_sentence d cfg st s gi).1.currentSentence = st.currentSentence := by
  simp only [add_sentence]
  repeat' split
  all_goals rfl

lemma add_sentence_conversationLog (d : Detector) (cfg : Config) (st : SessionState) (s : String)
    (gi : Option ImmediateResult) :
    (add_sentence d cfg st s gi).1.conversationLog = st.conversationLog := by
  simp only [add_sentence]
  repeat' split
  all_goals rfl

lemma append_history_cum (st : SessionState) (s : String) (f : Bool) (c : ImmediateResult)
    (sn : Snapshot) (t : ℚ) :
    (append_history st s f c sn t).cumulativeProbability = st.cumulativeProbability := by
  simp only [append_history]
  split
  all_goals rfl

lemma append_history_counts (st : SessionState) (s : String) (f : Bool) (c : ImmediateResult)
    (sn : Snapshot) (t : ℚ) :
    (append_history st s f c sn t).keywordCounts = st.keywordCounts := by
  simp only [append_history]
  split
  all_goals rfl

lemma append_history_keywords (st : SessionState) (s : String) (f : Bool) (c : ImmediateResult)
    (sn : Snapshot) (t : ℚ) :
    (append_history st s f c sn t).cumulativeKeywords = st.cumulativeKeywords := by
  simp only [append_history]
  split
  all_goals rfl

lemma append_history_details (st : SessionState) (s : String) (f : Bool) (c : ImmediateResult)
    (sn : Snapshot) (t : ℚ) :
    (append_history st s f c sn t).keywordDetailKeys = st.keywordDetailKeys ∧
      (append_history st s f c sn t).cumulativeKeywordDetails = st.cumulativeKeywordDetails := by
  constructor
  all_goals simp only [append_history]
  all_goals split
  all_goals rfl

lemma append_history_currentSentence (st : SessionState) (s : String) (f : Bool)
    (c : ImmediateResult) (sn : Snapshot) (t : ℚ) :
    (append_history st s f c sn t).currentSentence = st.currentSentence := by
  simp only [append_history]
  split
  all_goals rfl

lemma append_history_skipped (st : SessionState) (s : String) (c : ImmediateResult)
    (sn : Snapshot) (t : ℚ) :
    append_history st s false c sn t = st := by
  simp [append_history]

lemma append_history_final (st : SessionState) (s : String) (hs : s ≠ "")
    (c : ImmediateResult) (sn : Snapshot) (t : ℚ) :
    (append_history st s true c sn t).conversationLog =
      st.conversationLog ++ [⟨s, true, t, c, sn⟩] := by
  simp only [append_history]
  rw [if_neg (by simp [hs])]

/-! ### Keyword count and repeat-factor lemmas -/

lemma bumpCount_le (c : String → ℕ) (kw x : String) : c x ≤ bumpCount c kw x := by
  unfold bumpCount
  split
  · rename_i hx
    rw [hx]
    omega
  · exact le_refl _

lemma mergeKw_counts_le (l : List String) :
    ∀ (c : String → ℕ) (acc : List String) (x : String), c x ≤ (mergeKw l c acc).1 x := by
  induction l with
  | nil => intro c acc x; simp [mergeKw]
  | cons kw rest ih =>
    intro c acc x
    rw [mergeKw]
    split
    · exact ih c acc x
    · exact le_trans (bumpCount_le c kw x) (ih _ _ x)

lemma mergeKw_counts_lt (l : List String) :
    ∀ (c : String → ℕ) (acc : List String) (kw : String), kw ∈ l → kw ≠ "" →
      c kw < (mergeKw l c acc).1 kw := by
  induction l with
  | nil => intro c acc kw hmem; exact absurd hmem (List.not_mem_nil kw)
  | cons a rest ih =>
    intro c acc kw hmem hne
    rw [mergeKw]
    split
    · rename_i ha
      have : kw ∈ rest := by
        rcases List.mem_cons.mp hmem with h1 | h2
        · exact absurd (h1.trans ha) hne
        · exact h2
      exact ih c acc kw this hne
    · by_cases hkwa : kw = a
      · refine lt_of_lt_of_le ?_ (mergeKw_counts_le rest _ _ kw)
        unfold bumpCount
        rw [if_pos hkwa, hkwa]
        omega
      · have : kw ∈ rest := by
          rcases List.mem_cons.mp hmem with h1 | h2
          · exact absurd h1 hkwa
          · exact h2
        have hb : bumpCount c a kw = c kw := by
          unfold bumpCount
          rw [if_neg hkwa]
        calc c kw = bumpCount c a kw := hb.symm
          _ < (mergeKw rest (bumpCount c a) (acc ++ [a])).1 kw := ih _ _ kw this hne

lemma repeatFactor_nonneg (c : String → ℕ) (ks : List String) : 0 ≤ repeatFactor c ks := by
  simp only [repeatFactor]
  split
  · norm_num
  · refine div_nonneg ?_ (by positivity)
    refine List.sum_nonneg ?_
    intro x hx
    rcases List.mem_map.mp hx with ⟨kw, _, hmap⟩
    rw [← hmap]
    positivity

lemma repeatFactor_eq_mean (c : String → ℕ) (ks : List String) (hne : ks ≠ [])
    (hkw : ∀ kw ∈ ks, kw ≠ "") :
    repeatFactor c ks =
      (ks.map (fun kw => 1 / (1 + (c kw : ℚ)))).sum / ks.length := by
  simp only [repeatFactor]
  have hfilter : ks.filter (fun kw => decide (kw ≠ "")) = ks := by
    refine List.filter_eq_self.mpr ?_
    intro a ha
    exact decide_eq_true (hkw a ha)
  rw [hfilter]
  split
  · rename_i hempty
    exfalso
    exact hne (by simpa using hempty)
  · rw [List.length_map]

lemma mean_strict (ks : List String) (hne : ks ≠ []) (c c' : String → ℕ)
    (h : ∀ kw ∈ ks, c kw < c' kw) :
    (ks.map (fun kw => 1 / (1 + (c' kw : ℚ)))).sum / ks.length <
      (ks.map (fun kw => 1 / (1 + (c kw : ℚ)))).sum / ks.length := by
  have hlen : (0 : ℚ) < ks.length := by
    have := List.length_pos.mpr hne
    exact_mod_cast this
  have hsum : (ks.map (fun kw => 1 / (1 + (c' kw : ℚ)))).sum <
      (ks.map (fun kw => 1 / (1 + (c kw : ℚ)))).sum := by
    refine List.sum_lt_sum _ _ ?_ ?_
    · intro kw hkwmem
      have hlt : (1 : ℚ) + c kw < 1 + c' kw := by
        have := h kw hkwmem
        have : (c kw : ℚ) < c' kw := by exact_mod_cast this
        linarith
      have hpos : (0 : ℚ) < 1 + c kw := by positivity
      exact le_of_lt (by
        apply div_lt_div_of_pos_left (by norm_num) hpos hlt)
    · obtain ⟨kw, hkwmem⟩ := List.exists_mem_of_ne_nil ks hne
      refine ⟨kw, hkwmem, ?_⟩
      have hlt : (1 : ℚ) + c kw < 1 + c' kw := by
        have := h kw hkwmem
        have : (c kw : ℚ) < c' kw := by exact_mod_cast this
        linarith
      have hpos : (0 : ℚ) < 1 + c kw := by positivity
      apply div_lt_div_of_pos_left (by norm_num) hpos hlt
  exact div_lt_div_of_pos_right hsum hlen

/-! ### process_fragment characterization lemmas -/

lemma process_fragment_noop (d : Detector) (cfg : Config) (st : SessionState) (s : String)
    (h : Bool) (t : ℚ) (hs : pyStrip s = "") :
    process_fragment d cfg st s h t =
      (st, ⟨none, currentSnapshot st, none, none, none⟩) := by
  simp only [process_fragment]
  rw [if_pos hs]

lemma process_fragment_cum (d : Detector) (cfg : Config) (st : SessionState) (s : String)
    (h : Bool) (t : ℚ) (hs : pyStrip s ≠ "") :
    (process_fragment d cfg st s h t).1.cumulativeProbability =
      (update_cumulative_immediate cfg st (some (detect_immediate d cfg s))).cumulativeProbability := by
  simp only [process_fragment]
  rw [if_neg hs]
  split
  · simp [append_history_cum, add_sentence_cum]
  · simp [append_history_cum]

lemma process_fragment_counts (d : Detector) (cfg : Config) (st : SessionState) (s : String)
    (h : Bool) (t : ℚ) (hs : pyStrip s ≠ "") :
    (process_fragment d cfg st s h t).1.keywordCounts =
      (update_cumulative_immediate cfg st (some (detect_immediate d cfg s))).keywordCounts := by
  simp only [process_fragment]
  rw [if_neg hs]
  split
  · simp [append_history_counts, add_sentence_counts]
  · simp [append_history_counts]

lemma process_fragment_details (d : Detector) (cfg : Config) (st : SessionState) (s : String)
    (h : Bool) (t : ℚ) (hs : pyStrip s ≠ "") :
    (process_fragment d cfg st s h t).1.keywordDetailKeys =
        (update_cumulative_immediate cfg st (some (detect_immediate d cfg s))).keywordDetailKeys ∧
      (process_fragment d cfg st s h t).1.cumulativeKeywordDetails =
        (update_cumulative_immediate cfg st (some (detect_immediate d cfg s))).cumulativeKeywordDetails := by
  simp only [process_fragment]
  rw [if_neg hs]
  split
  · constructor
    · simp [(append_history_details _ _ _ _ _ _).1, (add_sentence_details _ _ _ _ _).1]
    · simp [(append_history_details _ _ _ _ _ _).2, (add_sentence_details _ _ _ _ _).2]
  · constructor
    · simp [(append_history_details _ _ _ _ _ _).1]
    · simp [(append_history_details _ _ _ _ _ _).2]

lemma fragmentFinalizes_iff (cfg : Config) (st : SessionState) (s : String) (h : Bool) :
    fragmentFinalizes cfg st s h = true ↔
      (pyStrip s ≠ "" ∧ (h = true ∨
        should_force_finalize cfg (pyStrip (st.currentSentence ++ " " ++ s)) = true)) := by
  simp [fragmentFinalizes]

lemma process_fragment_final_state (d : Detector) (cfg : Config) (st : SessionState)
    (s : String) (h : Bool) (t : ℚ) (hs : pyStrip s ≠ "")
    (hfin : h = true ∨
      should_force_finalize cfg (pyStrip (st.currentSentence ++ " " ++ s)) = true) :
    (process_fragment d cfg st s h t).1.currentSentence = "" ∧
      (process_fragment d cfg st s h t).1.conversationLog =
        st.conversationLog ++
          [⟨pyStrip (st.currentSentence ++ " " ++ s), true, t,
            detect_immediate d cfg (pyStrip (st.currentSentence ++ " " ++ s)),
            currentSnapshot
              (update_cumulative_immediate cfg st (some (detect_immediate d cfg s)))⟩] := by
  have hpend : pyStrip (st.currentSentence ++ " " ++ s) ≠ "" :=
    pyStrip_append_space_ne st.currentSentence s hs
  simp only [process_fragment]
  rw [if_neg hs, update_cum_currentSentence cfg st (some (detect_immediate d cfg s)),
    if_pos ⟨hpend, hfin⟩]
  constructor
  · simp [append_history_currentSentence, add_sentence_currentSentence]
  · rw [append_history_final _ _ hpend, add_sentence_conversationLog]
    simp [update_cum_conversationLog]

lemma process_fragment_partial_state (d : Detector) (cfg : Config) (st : SessionState)
    (s : String) (h : Bool) (t : ℚ) (hs : pyStrip s ≠ "")
    (hnofin : ¬ (h = true ∨
      should_force_finalize cfg (pyStrip (st.currentSentence ++ " " ++ s)) = true)) :
    (process_fragment d cfg st s h t).1.currentSentence =
        pyStrip (st.currentSentence ++ " " ++ s) ∧
      (process_fragment d cfg st s h t).1.conversationLog = st.conversationLog := by
  simp only [process_fragment]
  rw [if_neg hs, update_cum_currentSentence cfg st (some (detect_immediate d cfg s)),
    if_neg (fun hc => hnofin hc.2)]
  constructor
  · rw [append_history_skipped]
  · rw [append_history_skipped]
    simp [update_cum_conversationLog]

/-! ### Claim theorems with elementary guards -/

/-- Claim C5: a fragment that is empty or whitespace-only makes
process_fragment return the current cumulative snapshot with null
chunk_immediate and null comprehensive, leaves the whole session state
unchanged, and the outcome does not depend on the detector, so neither
classifier is consulted, for both values of the final hint. -/
theorem claim5_blank_fragment_noop (d : Detector) (st : SessionState) (s : String) (h : Bool)
    (t : ℚ) (hs : pyStrip s = "") :
    process_fragment d defaultConfig st s h t =
        (st, ⟨none, currentSnapshot st, none, none, none⟩) ∧
      ∀ d2 : Detector, process_fragment d2 defaultConfig st s h t =
        process_fragment d defaultConfig st s h t := by
  refine ⟨process_fragment_noop d defaultConfig st s h t hs, fun d2 => ?_⟩
  rw [process_fragment_noop d defaultConfig st s h t hs,
    process_fragment_noop d2 defaultConfig st s h t hs]

/-- Evaluation witness for claim C5 at a whitespace-only fragment. -/
theorem claim5_witness :
    pyStrip ("   ") = "" ∧
      process_fragment sampleDetector defaultConfig sampleState ("   ") true 0 =
        (sampleState, ⟨none, currentSnapshot sampleState, none, none, none⟩) :=
  ⟨by decide,
    (claim5_blank_fragment_noop sampleDetector sampleState ("   ") true 0 (by decide)).1⟩

/-- Claim C8: add_sentence on a sentence whose stripped length is below five
characters (which includes the empty string, the model of a missing
sentence) returns null immediate and null comprehensive, leaves the state
unchanged, and does not depend on the detector, so no classifier runs. -/
theorem claim8_short_sentence_noop (d : Detector) (cfg : Config) (st : SessionState)
    (s : String) (gi : Option ImmediateResult) (hlen : pyLen (pyStrip s) < 5) :
    add_sentence d cfg st s gi = (st, ⟨none, none⟩) ∧
      ∀ d2 : Detector, add_sentence d2 cfg st s gi = (st, ⟨none, none⟩) := by
  have key : ∀ d3 : Detector, add_sentence d3 cfg st s gi = (st, ⟨none, none⟩) := by
    intro d3
    simp only [add_sentence]
    rw [if_pos (Or.inr hlen)]
  exact ⟨key d, key⟩

/-- Evaluation witness for claim C8 at a four-character sentence. -/
theorem claim8_witness :
    pyLen (pyStrip ("ab c")) < 5 ∧
      add_sentence sampleDetector defaultConfig sampleState ("ab c") none =
        (sampleState, ⟨none, none⟩) :=
  ⟨by decide,
    (claim8_short_sentence_noop sampleDetector defaultConfig sampleState ("ab c") none
      (by decide)).1⟩

/-- Claim C9: resetting twice yields the same cleared state as resetting
once with the final id and times, and the second reset persists nothing
because the first reset emptied the conversation log. -/
theorem claim9_reset_idempotent (st : SessionState) (id1 id2 : String) (e1 n1 e2 n2 : ℚ) :
    (reset (reset st id1 e1 n1).1 id2 e2 n2).2 = none ∧
      (reset (reset st id1 e1 n1).1 id2 e2 n2).1 = (reset st id2 e2 n2).1 := by
  exact ⟨rfl, rfl⟩

/-- Claim C10: detect_comprehensive short-circuits inputs shorter than ten
stripped characters to the fixed negative result independently of the
model, and otherwise reports the thresholded model probability with the
analyzed length. -/
theorem claim10_comprehensive_gate (d : Detector) (text : String) :
    (pyLen (pyStrip text) < 10 →
        detect_comprehensive d text = ⟨false, 0, "kobert", 0⟩ ∧
        ∀ p2 : String → ℚ,
          detect_comprehensive ⟨d.tokens, d.chooseType, p2, d.kobertThreshold⟩ text =
            ⟨false, 0, "kobert", 0⟩) ∧
      (¬ pyLen (pyStrip text) < 10 →
        ((detect_comprehensive d text).isPhishing = true ↔
            d.kobertThreshold ≤ d.kobertProb text) ∧
        (detect_comprehensive d text).confidence = d.kobertProb text ∧
        (detect_comprehensive d text).analyzedLength = pyLen text) := by
  constructor
  · intro hshort
    have key : ∀ d3 : Detector, d3.kobertThreshold = d.kobertThreshold →
        detect_comprehensive d3 text = ⟨false, 0, "kobert", 0⟩ := by
      intro d3 _
      simp only [detect_comprehensive]
      rw [if_pos (Or.inr hshort)]
    exact ⟨key d rfl, fun p2 => key _ rfl⟩
  · intro hlong
    have hne : text ≠ "" := by
      intro hc
      apply hlong
      rw [hc]
      decide
    simp only [detect_comprehensive]
    rw [if_neg (by
      intro hc
      rcases hc with h1 | h2
      · exact hne h1
      · exact hlong h2)]
    refine ⟨?_, rfl, rfl⟩
    simp [decide_eq_true_iff]

/-- Evaluation witness for claim C10: both the short-circuit branch and the
model-delegation branch at concrete texts. -/
theorem claim10_witness :
    (pyLen (pyStrip ("short")) < 10 ∧
        detect_comprehensive sampleDetector ("short") = ⟨false, 0, "kobert", 0⟩) ∧
      (¬ pyLen (pyStrip ("0123456789ab")) < 10 ∧
        ((detect_comprehensive sampleDetector ("0123456789ab")).isPhishing = true ↔
          sampleDetector.kobertThreshold ≤ sampleDetector.kobertProb ("0123456789ab"))) :=
  ⟨⟨by decide, ((claim10_comprehensive_gate sampleDetector ("short")).1 (by decide)).1⟩,
    ⟨by decide, ((claim10_comprehensive_gate sampleDetector ("0123456789ab")).2 (by decide)).1⟩⟩

/-! ### Score bounds -/

lemma update_cum_bounds (cfg : Config) (st : SessionState) (ir : ImmediateResult)
    (hrg : 0 ≤ cfg.riskGain) (hsd : 0 ≤ cfg.safeDecay) (hp : 0 ≤ ir.probability)
    (h0 : 0 ≤ st.cumulativeProbability) (h100 : st.cumulativeProbability ≤ 100) :
    0 ≤ (update_cumulative_immediate cfg st (some ir)).cumulativeProbability ∧
      (update_cumulative_immediate cfg st (some ir)).cumulativeProbability ≤ 100 := by
  by_cases hl : 0 < ir.level
  · rw [update_cum_cum_risky cfg st ir hl]
    constructor
    · refine le_min (by norm_num) ?_
      have hδ : 0 ≤ ir.probability * cfg.riskGain * repeatFactor st.keywordCounts ir.keywords :=
        mul_nonneg (mul_nonneg hp hrg) (repeatFactor_nonneg _ _)
      linarith
    · exact min_le_left _ _
  · rw [update_cum_cum_safe cfg st ir hl]
    exact ⟨le_max_left _ _, max_le (by norm_num) (by linarith)⟩

lemma process_fragment_bounds (d : Detector) (cfg : Config) (st : SessionState) (s : String)
    (h : Bool) (t : ℚ) (hrg : 0 ≤ cfg.riskGain) (hsd : 0 ≤ cfg.safeDecay)
    (h0 : 0 ≤ st.cumulativeProbability) (h100 : st.cumulativeProbability ≤ 100) :
    0 ≤ (process_fragment d cfg st s h t).1.cumulativeProbability ∧
      (process_fragment d cfg st s h t).1.cumulativeProbability ≤ 100 := by
  by_cases hs : pyStrip s = ""
  · rw [process_fragment_noop d cfg st s h t hs]
    exact ⟨h0, h100⟩
  · rw [process_fragment_cum d cfg st s h t hs]
    exact update_cum_bounds cfg st _ hrg hsd (detect_immediate_prob_nonneg d cfg s) h0 h100

/-- Claim C1: over any sequence of process_fragment calls (arbitrary texts,
arbitrary final hints) from any state whose score is within the unit
interval scaled to 100 — in particular a fresh session, whose score is 0 —
the cumulative probability stays within zero and one hundred after every
call. -/
theorem claim1_score_bounds (d : Detector) (st : SessionState)
    (inputs : List (String × Bool × ℚ))
    (h0 : 0 ≤ st.cumulativeProbability) (h100 : st.cumulativeProbability ≤ 100) :
    0 ≤ (runFragments d defaultConfig st inputs).cumulativeProbability ∧
      (runFragments d defaultConfig st inputs).cumulativeProbability ≤ 100 := by
  induction inputs generalizing st with
  | nil => exact ⟨h0, h100⟩
  | cons p rest ih =>
    obtain ⟨s, h, t⟩ := p
    rw [runFragments]
    have step := process_fragment_bounds d defaultConfig st s h t
      (by norm_num [defaultConfig]) (by norm_num [defaultConfig]) h0 h100
    exact ih _ step.1 step.2

/-- Evaluation witness for claim C1 on a fresh session and a risky feed. -/
theorem claim1_witness :
    0 ≤ (runFragments sampleDetector defaultConfig sampleState
        [(("검찰청입니다"), false, 0), (("ab c"), true, 1)]).cumulativeProbability ∧
      (runFragments sampleDetector defaultConfig sampleState
        [(("검찰청입니다"), false, 0), (("ab c"), true, 1)]).cumulativeProbability ≤ 100 :=
  claim1_score_bounds sampleDetector sampleState
    [(("검찰청입니다"), false, 0), (("ab c"), true, 1)] (by decide) (by decide)

/-! ### Conversation log growth -/

lemma process_fragment_log_le (d : Detector) (cfg : Config) (st : SessionState) (s : String)
    (h : Bool) (t : ℚ) :
    st.conversationLog.length ≤ (process_fragment d cfg st s h t).1.conversationLog.length := by
  by_cases hs : pyStrip s = ""
  · rw [process_fragment_noop d cfg st s h t hs]
  · by_cases hf : h = true ∨
        should_force_finalize cfg (pyStrip (st.currentSentence ++ " " ++ s)) = true
    · rw [(process_fragment_final_state d cfg st s h t hs hf).2]
      simp
    · rw [(process_fragment_partial_state d cfg st s h t hs hf).2]

lemma runFragments_log_mono (d : Detector) (cfg : Config)
    (inputs : List (String × Bool × ℚ)) :
    ∀ st : SessionState,
      st.conversationLog.length ≤ (runFragments d cfg st inputs).conversationLog.length := by
  induction inputs with
  | nil => intro st; rfl
  | cons p rest ih =>
    intro st
    obtain ⟨s, h, t⟩ := p
    rw [runFragments]
    exact le_trans (process_fragment_log_le d cfg st s h t) (ih _)

/-- Claim C7: the conversation log never shrinks over any sequence of
process_fragment calls, grows by exactly one entry on a call that finalizes
a fragment, and is left untouched by a call that does not finalize. -/
theorem claim7_log_growth (d : Detector) (st : SessionState) (s : String) (h : Bool) (t : ℚ) :
    (fragmentFinalizes defaultConfig st s h = true →
        (process_fragment d defaultConfig st s h t).1.conversationLog.length =
          st.conversationLog.length + 1) ∧
      (fragmentFinalizes defaultConfig st s h = false →
        (process_fragment d defaultConfig st s h t).1.conversationLog =
          st.conversationLog) ∧
      ∀ inputs : List (String × Bool × ℚ),
        st.conversationLog.length ≤
          (runFragments d defaultConfig st inputs).conversationLog.length := by
  refine ⟨?_, ?_, fun inputs => runFragments_log_mono d defaultConfig inputs st⟩
  · intro hfin
    rw [fragmentFinalizes_iff] at hfin
    rw [(process_fragment_final_state d defaultConfig st s h t hfin.1 hfin.2).2]
    simp
  · intro hnfin
    by_cases hs : pyStrip s = ""
    · rw [process_fragment_noop d defaultConfig st s h t hs]
    · have hnof : ¬ (h = true ∨
          should_force_finalize defaultConfig (pyStrip (st.currentSentence ++ " " ++ s)) = true) := by
        intro hf
        have : fragmentFinalizes defaultConfig st s h = true :=
          (fragmentFinalizes_iff defaultConfig st s h).mpr ⟨hs, hf⟩
        rw [hnfin] at this
        exact Bool.false_ne_true this
      exact (process_fragment_partial_state d defaultConfig st s h t hs hnof).2

/-- Evaluation witness for claim C7 at a force-finalizing fragment. -/
theorem claim7_witness :
    fragmentFinalizes defaultConfig sampleState ("검찰청입니다") false = true ∧
      (process_fragment sampleDetector defaultConfig sampleState
          ("검찰청입니다") false 0).1.conversationLog.length =
        sampleState.conversationLog.length + 1 :=
  ⟨by decide,
    (claim7_log_growth sampleDetector sampleState ("검찰청입니다") false 0).1 (by decide)⟩

/-! ### Forced finalization condition -/

lemma should_force_finalize_iff (cfg : Config) (x : String)
    (hen : cfg.forceFinalEnabled = true) :
    should_force_finalize cfg x = true ↔
      (cfg.minCharsForKobert ≤ pyLen (pyStrip x) ∧
        (lastCharFinal (pyStrip x) = true ∨ 2 ≤ spaceCount (pyStrip x))) := by
  simp only [should_force_finalize, hen]
  split_ifs with h1 h2 h3 <;> simp_all

/-- Claim C3: a nonblank fragment finalizes the pending text exactly when
the final hint is set or the stripped pending text reaches six characters
and either ends with a sentence-final marker or contains two spaces; in
particular a pending text shorter than six characters never finalizes
without the hint. Finalization is observed by the pending text being
cleared; a non-finalizing call keeps the nonempty pending text. -/
theorem claim3_finalization_condition (d : Detector) (st : SessionState) (s : String)
    (h : Bool) (t : ℚ) (hs : pyStrip s ≠ "") :
    ((process_fragment d defaultConfig st s h t).1.currentSentence = "" ↔
        (h = true ∨
          (6 ≤ pyLen (pyStrip (pyStrip (st.currentSentence ++ " " ++ s))) ∧
            (lastCharFinal (pyStrip (pyStrip (st.currentSentence ++ " " ++ s))) = true ∨
              2 ≤ spaceCount (pyStrip (pyStrip (st.currentSentence ++ " " ++ s))))))) ∧
      (h = false → pyLen (pyStrip (pyStrip (st.currentSentence ++ " " ++ s))) < 6 →
        (process_fragment d defaultConfig st s h t).1.currentSentence =
          pyStrip (st.currentSentence ++ " " ++ s)) := by
  have hpend : pyStrip (st.currentSentence ++ " " ++ s) ≠ "" :=
    pyStrip_append_space_ne st.currentSentence s hs
  have hforce := should_force_finalize_iff defaultConfig
    (pyStrip (st.currentSentence ++ " " ++ s)) rfl
  have hsix : defaultConfig.minCharsForKobert = 6 := rfl
  constructor
  · constructor
    · intro hcur
      by_cases hcond : h = true ∨
          should_force_finalize defaultConfig (pyStrip (st.currentSentence ++ " " ++ s)) = true
      · rcases hcond with h1 | h2
        · exact Or.inl h1
        · right
          rw [hforce, hsix] at h2
          exact h2
      · exfalso
        apply hpend
        rw [← (process_fragment_partial_state d defaultConfig st s h t hs hcond).1]
        exact hcur
    · intro hcond
      have hfin : h = true ∨
          should_force_finalize defaultConfig (pyStrip (st.currentSentence ++ " " ++ s)) = true := by
        rcases hcond with h1 | h2
        · exact Or.inl h1
        · right
          rw [hforce, hsix]
          exact h2
      exact (process_fragment_final_state d defaultConfig st s h t hs hfin).1
  · intro hh hlen
    refine (process_fragment_partial_state d defaultConfig st s h t hs ?_).1
    intro hf
    rcases hf with h1 | h2
    · rw [hh] at h1
      exact Bool.false_ne_true h1
    · rw [hforce, hsix] at h2
      omega

/-- Evaluation witness for claim C3: a six-character pending text ending in
a sentence-final particle forces finalization without the hint. -/
theorem claim3_witness :
    pyStrip ("검찰청입니다") ≠ "" ∧
      (process_fragment sampleDetector defaultConfig sampleState
        ("검찰청입니다") false 0).1.currentSentence = "" :=
  ⟨by decide,
    (claim3_finalization_condition sampleDetector sampleState ("검찰청입니다") false 0
      (by decide)).1.mpr (by decide)⟩

/-! ### Finalization commit effects -/

lemma append_history_sentenceBuffer (st : SessionState) (s : String) (f : Bool)
    (c : ImmediateResult) (sn : Snapshot) (t : ℚ) :
    (append_history st s f c sn t).sentenceBuffer = st.sentenceBuffer := by
  simp only [append_history]
  split
  all_goals rfl

lemma append_history_accumulatedText (st : SessionState) (s : String) (f : Bool)
    (c : ImmediateResult) (sn : Snapshot) (t : ℚ) :
    (append_history st s f c sn t).accumulatedText = st.accumulatedText := by
  simp only [append_history]
  split
  all_goals rfl

lemma append_history_sentenceCount (st : SessionState) (s : String) (f : Bool)
    (c : ImmediateResult) (sn : Snapshot) (t : ℚ) :
    (append_history st s f c sn t).sentenceCount = st.sentenceCount := by
  simp only [append_history]
  split
  all_goals rfl

lemma add_sentence_commit (d : Detector) (cfg : Config) (st : SessionState) (s : String)
    (gi : Option ImmediateResult) (hne : s ≠ "") (hlen : ¬ pyLen (pyStrip s) < 5)
    (hgate : max 1 cfg.minSentencesForKobert ≤ st.sentenceCount + 1) :
    (add_sentence d cfg st s gi).1.sentenceBuffer =
        pushWindow st.windowSize st.sentenceBuffer s ∧
      (add_sentence d cfg st s gi).1.accumulatedText = st.accumulatedText ++ " " ++ s ∧
      (add_sentence d cfg st s gi).1.sentenceCount = st.sentenceCount + 1 ∧
      (add_sentence d cfg st s gi).2.comprehensive =
        some (detect_comprehensive d (pyStrip (st.accumulatedText ++ " " ++ s))) := by
  simp only [add_sentence]
  rw [if_neg (by
    intro hc
    rcases hc with h1 | h2
    · exact hne h1
    · exact hlen h2), if_pos (Or.inl hgate)]
  exact ⟨rfl, rfl, rfl, rfl⟩

/-- Counterexample to claim C2 as stated: the fragment ab c with the final
hint set is finalized (pending text cleared, one log entry appended), yet
its stripped length four is below the five-character floor of add_sentence,
so nothing is pushed into the buffer, the accumulated text and sentence
count stay untouched, and no comprehensive result is produced. -/
theorem claim2_counterexample :
    (process_fragment sampleDetector defaultConfig sampleState
        ("ab c") true 0).1.currentSentence = "" ∧
      (process_fragment sampleDetector defaultConfig sampleState
        ("ab c") true 0).1.conversationLog.length = 1 ∧
      (process_fragment sampleDetector defaultConfig sampleState
        ("ab c") true 0).1.sentenceCount = 0 ∧
      (process_fragment sampleDetector defaultConfig sampleState
        ("ab c") true 0).1.sentenceBuffer = [] ∧
      (process_fragment sampleDetector defaultConfig sampleState
        ("ab c") true 0).1.accumulatedText = "" ∧
      (process_fragment sampleDetector defaultConfig sampleState
        ("ab c") true 0).2.comprehensive = none := by
  decide

/-- Claim C2 as amended: on a finalizing call whose finalized sentence (the
full stripped pending text) has at least five characters, the pending text
is cleared, the sentence is pushed into the windowed buffer, appended to
the accumulated text, the sentence count is incremented, the immediate
classifier is rerun on the finalized sentence for the log entry, and the
comprehensive classifier runs on the stripped accumulated text with its
result returned. -/
theorem claim2_finalization_commit (d : Detector) (st : SessionState) (s : String) (h : Bool)
    (t : ℚ) (hs : pyStrip s ≠ "")
    (hfin : h = true ∨
      should_force_finalize defaultConfig (pyStrip (st.currentSentence ++ " " ++ s)) = true)
    (hlen : 5 ≤ pyLen (pyStrip (pyStrip (st.currentSentence ++ " " ++ s)))) :
    (process_fragment d defaultConfig st s h t).1.currentSentence = "" ∧
      (process_fragment d defaultConfig st s h t).1.sentenceBuffer =
        pushWindow st.windowSize st.sentenceBuffer
          (pyStrip (st.currentSentence ++ " " ++ s)) ∧
      (process_fragment d defaultConfig st s h t).1.accumulatedText =
        st.accumulatedText ++ " " ++ pyStrip (st.currentSentence ++ " " ++ s) ∧
      (process_fragment d defaultConfig st s h t).1.sentenceCount = st.sentenceCount + 1 ∧
      (process_fragment d defaultConfig st s h t).2.comprehensive =
        some (detect_comprehensive d
          (pyStrip (st.accumulatedText ++ " " ++ pyStrip (st.currentSentence ++ " " ++ s)))) ∧
      (process_fragment d defaultConfig st s h t).1.conversationLog =
        st.conversationLog ++
          [⟨pyStrip (st.currentSentence ++ " " ++ s), true, t,
            detect_immediate d defaultConfig (pyStrip (st.currentSentence ++ " " ++ s)),
            currentSnapshot (update_cumulative_immediate defaultConfig st
              (some (detect_immediate d defaultConfig s)))⟩] := by
  obtain ⟨hcur, hlog⟩ := process_fragment_final_state d defaultConfig st s h t hs hfin
  have hpend : pyStrip (st.currentSentence ++ " " ++ s) ≠ "" :=
    pyStrip_append_space_ne st.currentSentence s hs
  have hkey :
      (process_fragment d defaultConfig st s h t).1.sentenceBuffer =
          pushWindow st.windowSize st.sentenceBuffer
            (pyStrip (st.currentSentence ++ " " ++ s)) ∧
        (process_fragment d defaultConfig st s h t).1.accumulatedText =
          st.accumulatedText ++ " " ++ pyStrip (st.currentSentence ++ " " ++ s) ∧
        (process_fragment d defaultConfig st s h t).1.sentenceCount = st.sentenceCount + 1 ∧
        (process_fragment d defaultConfig st s h t).2.comprehensive =
          some (detect_comprehensive d
            (pyStrip (st.accumulatedText ++ " " ++
              pyStrip (st.currentSentence ++ " " ++ s)))) := by
    simp only [process_fragment]
    rw [if_neg hs, update_cum_currentSentence defaultConfig st
      (some (detect_immediate d defaultConfig s)), if_pos ⟨hpend, hfin⟩]
    have hcommit := add_sentence_commit d defaultConfig
      { update_cumulative_immediate defaultConfig st (some (detect_immediate d defaultConfig s))
          with currentSentence := "" }
      (pyStrip (st.currentSentence ++ " " ++ s))
      (some (detect_immediate d defaultConfig (pyStrip (st.currentSentence ++ " " ++ s))))
      hpend (by omega) (by norm_num [defaultConfig])
    refine ⟨?_, ?_, ?_, ?_⟩
    · rw [append_history_sentenceBuffer, hcommit.1]
      simp [update_cum_windowSize, update_cum_sentenceBuffer]
    · rw [append_history_accumulatedText, hcommit.2.1]
      simp [update_cum_accumulatedText]
    · rw [append_history_sentenceCount, hcommit.2.2.1]
      simp [update_cum_sentenceCount]
    · rw [show (⟨some (detect_immediate d defaultConfig s),
        currentSnapshot (update_cumulative_immediate defaultConfig st
          (some (detect_immediate d defaultConfig s))), _, _, _⟩ : FragmentResult).comprehensive
        = _ from rfl]
      rw [hcommit.2.2.2]
      simp [update_cum_accumulatedText]
  exact ⟨hcur, hkey.1, hkey.2.1, hkey.2.2.1, hkey.2.2.2, hlog⟩

/-- Evaluation witness for claim C2 as amended, at a six-character
force-finalizing fragment on a fresh session. -/
theorem claim2_witness :
    pyStrip ("검찰청입니다") ≠ "" ∧
      (process_fragment sampleDetector defaultConfig sampleState
          ("검찰청입니다") true 0).1.sentenceCount = sampleState.sentenceCount + 1 ∧
      (process_fragment sampleDetector defaultConfig sampleState
          ("검찰청입니다") true 0).2.comprehensive =
        some (detect_comprehensive sampleDetector
          (pyStrip (sampleState.accumulatedText ++ " " ++
            pyStrip (sampleState.currentSentence ++ " " ++ ("검찰청입니다"))))) :=
  ⟨by decide,
    (claim2_finalization_commit sampleDetector sampleState ("검찰청입니다") true 0
      (by decide) (Or.inl rfl) (by decide)).2.2.2.1,
    (claim2_finalization_commit sampleDetector sampleState ("검찰청입니다") true 0
      (by decide) (Or.inl rfl) (by decide)).2.2.2.2.1⟩

/-! ### Keyword detail deduplication -/

/-- Invariant tying the seen-key set to the cumulative detail list. -/
def detailInv (st : SessionState) : Prop :=
  st.cumulativeKeywordDetails.Nodup ∧
    ∀ x, x ∈ st.keywordDetailKeys ↔ x ∈ st.cumulativeKeywordDetails

lemma mergeDetails_inv (l : List KeywordDetail) :
    ∀ keys ds : List KeywordDetail, ds.Nodup → (∀ x, x ∈ keys ↔ x ∈ ds) →
      ((mergeDetails l keys ds).2.Nodup ∧
        ∀ x, x ∈ (mergeDetails l keys ds).1 ↔ x ∈ (mergeDetails l keys ds).2) := by
  induction l with
  | nil => intro keys ds hnd hiff; exact ⟨hnd, hiff⟩
  | cons dtl rest ih =>
    intro keys ds hnd hiff
    rw [mergeDetails]
    split
    · exact ih keys ds hnd hiff
    · rename_i hnotin
      refine ih _ _ ?_ ?_
      · have hnotds : dtl ∉ ds := fun hc => hnotin ((hiff dtl).mpr hc)
        simp [List.nodup_append, hnd, hnotds]
      · intro x
        simp only [List.mem_append, List.mem_singleton]
        rw [hiff x]

lemma update_cum_detailInv (cfg : Config) (st : SessionState) (r : Option ImmediateResult)
    (hinv : detailInv st) : detailInv (update_cumulative_immediate cfg st r) := by
  cases r with
  | none => exact hinv
  | some ir =>
    by_cases hl : 0 < ir.level
    · obtain ⟨hk, hd⟩ := update_cum_details_risky cfg st ir hl
      constructor
      · rw [hd]
        exact (mergeDetails_inv _ _ _ hinv.1 hinv.2).1
      · intro x
        rw [hk, hd]
        exact (mergeDetails_inv _ _ _ hinv.1 hinv.2).2 x
    · obtain ⟨hk, hd⟩ := update_cum_details_safe cfg st ir hl
      constructor
      · rw [hd]
        exact hinv.1
      · intro x
        rw [hk, hd]
        exact hinv.2 x

lemma process_fragment_detailInv (d : Detector) (cfg : Config) (st : SessionState)
    (s : String) (h : Bool) (t : ℚ) (hinv : detailInv st) :
    detailInv (process_fragment d cfg st s h t).1 := by
  by_cases hs : pyStrip s = ""
  · rw [process_fragment_noop d cfg st s h t hs]
    exact hinv
  · obtain ⟨hk, hd⟩ := process_fragment_details d cfg st s h t hs
    constructor
    · rw [hd]
      exact (update_cum_detailInv cfg st _ hinv).1
    · intro x
      rw [hk, hd]
      exact (update_cum_detailInv cfg st _ hinv).2 x

lemma runFragments_detailInv (d : Detector) (cfg : Config)
    (inputs : List (String × Bool × ℚ)) :
    ∀ st : SessionState, detailInv st → detailInv (runFragments d cfg st inputs) := by
  induction inputs with
  | nil => intro st hinv; exact hinv
  | cons p rest ih =>
    intro st hinv
    obtain ⟨s, h, t⟩ := p
    rw [runFragments]
    exact ih _ (process_fragment_detailInv d cfg st s h t hinv)

/-- Counterexample to claim C6 as stated: two feeds of the same risky
fragment leave the cumulative keyword list with the same keyword twice, so
that list is not deduplicated. -/
theorem claim6_counterexample :
    (runFragments sampleDetector defaultConfig sampleState
        [(("검찰청입니다"), false, 0), (("검찰청입니다"), false, 1)]).cumulativeKeywords =
      [("검찰청"), ("검찰청")] ∧
      ¬ (runFragments sampleDetector defaultConfig sampleState
        [(("검찰청입니다"), false, 0), (("검찰청입니다"), false, 1)]).cumulativeKeywords.Nodup := by
  constructor
  · with_unfolding_all decide
  · with_unfolding_all decide

/-- Claim C6 as amended: after any sequence of process_fragment calls on a
fresh session the cumulative keyword-detail list contains no detail twice;
the cumulative keyword list, by contrast, records every keyword occurrence
and may contain repeats. -/
theorem claim6_details_nodup (d : Detector) (ws : ℕ) (sid : String) (t0 : ℚ)
    (inputs : List (String × Bool × ℚ)) :
    (runFragments d defaultConfig (initialState ws sid t0)
      inputs).cumulativeKeywordDetails.Nodup := by
  refine (runFragments_detailInv d defaultConfig inputs (initialState ws sid t0) ?_).1
  exact ⟨List.nodup_nil, by simp [initialState]⟩

/-! ### Repeat-keyword dampening -/

/-- Claim C4: feeding one fixed risky fragment repeatedly, each increment of
the cumulative score equals the chunk probability times the risk gain times
the mean over the chunk keywords of one over one plus the prior occurrence
count, and is strictly smaller on the following occurrence while the score
stays below the cap of one hundred. -/
theorem claim4_repeat_dampening (d : Detector) (st0 : SessionState) (s : String) (h : Bool)
    (ts : ℕ → ℚ) (i : ℕ)
    (hlev : 0 < (detect_immediate d defaultConfig s).level)
    (hks : (detect_immediate d defaultConfig s).keywords ≠ [])
    (hcap : (feedN d defaultConfig s h ts st0 (i + 2)).cumulativeProbability < 100) :
    ((feedN d defaultConfig s h ts st0 (i + 1)).cumulativeProbability -
          (feedN d defaultConfig s h ts st0 i).cumulativeProbability =
        (detect_immediate d defaultConfig s).probability * defaultConfig.riskGain *
          (((detect_immediate d defaultConfig s).keywords.map (fun kw =>
              1 / (1 + ((feedN d defaultConfig s h ts st0 i).keywordCounts kw : ℚ)))).sum /
            (detect_immediate d defaultConfig s).keywords.length)) ∧
      ((feedN d defaultConfig s h ts st0 (i + 2)).cumulativeProbability -
          (feedN d defaultConfig s h ts st0 (i + 1)).cumulativeProbability =
        (detect_immediate d defaultConfig s).probability * defaultConfig.riskGain *
          (((detect_immediate d defaultConfig s).keywords.map (fun kw =>
              1 / (1 + ((feedN d defaultConfig s h ts st0 (i + 1)).keywordCounts kw : ℚ)))).sum /
            (detect_immediate d defaultConfig s).keywords.length)) ∧
      (feedN d defaultConfig s h ts st0 (i + 2)).cumulativeProbability -
          (feedN d defaultConfig s h ts st0 (i + 1)).cumulativeProbability <
        (feedN d defaultConfig s h ts st0 (i + 1)).cumulativeProbability -
          (feedN d defaultConfig s h ts st0 i).cumulativeProbability := by
  have hstrip : pyStrip s ≠ "" := detect_immediate_level_pos_strip d defaultConfig s hlev
  have hkwne := detect_immediate_keywords_ne d defaultConfig s
  have hprob := detect_immediate_level_pos_prob d defaultConfig s hlev
  have hgain : defaultConfig.riskGain = 1 := rfl
  have hBdef : feedN d defaultConfig s h ts st0 (i + 1) =
      (process_fragment d defaultConfig (feedN d defaultConfig s h ts st0 i) s h (ts i)).1 :=
    rfl
  have hCdef : feedN d defaultConfig s h ts st0 (i + 2) =
      (process_fragment d defaultConfig (feedN d defaultConfig s h ts st0 (i + 1)) s h
        (ts (i + 1))).1 :=
    rfl
  have hmean : ∀ st : SessionState,
      repeatFactor st.keywordCounts (detect_immediate d defaultConfig s).keywords =
        (((detect_immediate d defaultConfig s).keywords.map (fun kw =>
            1 / (1 + (st.keywordCounts kw : ℚ)))).sum /
          (detect_immediate d defaultConfig s).keywords.length) :=
    fun st => repeatFactor_eq_mean st.keywordCounts _ hks hkwne
  have hcum : ∀ (st : SessionState) (t : ℚ),
      (process_fragment d defaultConfig st s h t).1.cumulativeProbability =
        min 100 (st.cumulativeProbability +
          (detect_immediate d defaultConfig s).probability * defaultConfig.riskGain *
            repeatFactor st.keywordCounts (detect_immediate d defaultConfig s).keywords) := by
    intro st t
    rw [process_fragment_cum d defaultConfig st s h t hstrip,
      update_cum_cum_risky defaultConfig st _ hlev]
  have hcnt : ∀ (st : SessionState) (t : ℚ),
      ∀ kw ∈ (detect_immediate d defaultConfig s).keywords,
        st.keywordCounts kw < (process_fragment d defaultConfig st s h t).1.keywordCounts kw := by
    intro st t kw hmem
    rw [process_fragment_counts d defaultConfig st s h t hstrip,
      update_cum_counts_risky defaultConfig st _ hlev]
    exact mergeKw_counts_lt _ _ _ kw hmem (hkwne kw hmem)
  have hdnn : ∀ st : SessionState,
      0 ≤ (detect_immediate d defaultConfig s).probability * defaultConfig.riskGain *
        repeatFactor st.keywordCounts (detect_immediate d defaultConfig s).keywords := by
    intro st
    refine mul_nonneg (mul_nonneg (by linarith) (by rw [hgain]; norm_num))
      (repeatFactor_nonneg _ _)
  -- the second increment is uncapped
  have hCmin : (feedN d defaultConfig s h ts st0 (i + 2)).cumulativeProbability =
      min 100 ((feedN d defaultConfig s h ts st0 (i + 1)).cumulativeProbability +
        (detect_immediate d defaultConfig s).probability * defaultConfig.riskGain *
          repeatFactor (feedN d defaultConfig s h ts st0 (i + 1)).keywordCounts
            (detect_immediate d defaultConfig s).keywords) := by
    rw [hCdef]
    exact hcum _ (ts (i + 1))
  have hCarg : (feedN d defaultConfig s h ts st0 (i + 1)).cumulativeProbability +
      (detect_immediate d defaultConfig s).probability * defaultConfig.riskGain *
        repeatFactor (feedN d defaultConfig s h ts st0 (i + 1)).keywordCounts
          (detect_immediate d defaultConfig s).keywords < 100 := by
    by_contra hge
    push_neg at hge
    rw [hCmin, min_eq_left hge] at hcap
    exact lt_irrefl _ hcap
  have hCeq : (feedN d defaultConfig s h ts st0 (i + 2)).cumulativeProbability =
      (feedN d defaultConfig s h ts st0 (i + 1)).cumulativeProbability +
        (detect_immediate d defaultConfig s).probability * defaultConfig.riskGain *
          repeatFactor (feedN d defaultConfig s h ts st0 (i + 1)).keywordCounts
            (detect_immediate d defaultConfig s).keywords := by
    rw [hCmin]
    exact min_eq_right (le_of_lt hCarg)
  -- the first increment is uncapped as well
  have hBlt : (feedN d defaultConfig s h ts st0 (i + 1)).cumulativeProbability < 100 := by
    have := hdnn (feedN d defaultConfig s h ts st0 (i + 1))
    linarith
  have hBmin : (feedN d defaultConfig s h ts st0 (i + 1)).cumulativeProbability =
      min 100 ((feedN d defaultConfig s h ts st0 i).cumulativeProbability +
        (detect_immediate d defaultConfig s).probability * defaultConfig.riskGain *
          repeatFactor (feedN d defaultConfig s h ts st0 i).keywordCounts
            (detect_immediate d defaultConfig s).keywords) := by
    rw [hBdef]
    exact hcum _ (ts i)
  have hBarg : (feedN d defaultConfig s h ts st0 i).cumulativeProbability +
      (detect_immediate d defaultConfig s).probability * defaultConfig.riskGain *
        repeatFactor (feedN d defaultConfig s h ts st0 i).keywordCounts
          (detect_immediate d defaultConfig s).keywords < 100 := by
    by_contra hge
    push_neg at hge
    rw [hBmin, min_eq_left hge] at hBlt
    exact lt_irrefl _ hBlt
  have hBeq : (feedN d defaultConfig s h ts st0 (i + 1)).cumulativeProbability =
      (feedN d defaultConfig s h ts st0 i).cumulativeProbability +
        (detect_immediate d defaultConfig s).probability * defaultConfig.riskGain *
          repeatFactor (feedN d defaultConfig s h ts st0 i).keywordCounts
            (detect_immediate d defaultConfig s).keywords := by
    rw [hBmin]
    exact min_eq_right (le_of_lt hBarg)
  -- strict decrease of the repeat factor
  have hmlt : repeatFactor (feedN d defaultConfig s h ts st0 (i + 1)).keywordCounts
      (detect_immediate d defaultConfig s).keywords <
        repeatFactor (feedN d defaultConfig s h ts st0 i).keywordCounts
          (detect_immediate d defaultConfig s).keywords := by
    rw [hmean, hmean]
    refine mean_strict _ hks _ _ ?_
    intro kw hmem
    rw [hBdef]
    exact hcnt _ (ts i) kw hmem
  have hpg : 0 < (detect_immediate d defaultConfig s).probability * defaultConfig.riskGain := by
    rw [hgain, mul_one]
    linarith
  refine ⟨?_, ?_, ?_⟩
  · rw [hBeq, ← hmean]
    ring
  · rw [hCeq, ← hmean]
    ring
  · rw [hCeq, hBeq]
    have hmul := mul_lt_mul_of_pos_left hmlt hpg
    linarith

/-- Evaluation witness for claim C4: two repeat feedings of the risky sample
fragment produce a strictly smaller second increment. -/
theorem claim4_witness :
    (feedN sampleDetector defaultConfig ("검찰청입니다") false (fun _ => 0)
          sampleState 2).cumulativeProbability -
        (feedN sampleDetector defaultConfig ("검찰청입니다") false (fun _ => 0)
          sampleState 1).cumulativeProbability <
      (feedN sampleDetector defaultConfig ("검찰청입니다") false (fun _ => 0)
          sampleState 1).cumulativeProbability -
        (feedN sampleDetector defaultConfig ("검찰청입니다") false (fun _ => 0)
          sampleState 0).cumulativeProbability :=
  (claim4_repeat_dampening sampleDetector sampleState ("검찰청입니다") false (fun _ => 0) 0
    (by with_unfolding_all decide) (by with_unfolding_all decide)
    (by with_unfolding_all decide)).2.2

end AntiPhishing
